import Mathlib

/-!
# Verification of the dns-master configuration store (`src/db_manager.py`)

This file gives a shallow embedding of the `DataBaseManager` class of
`src/db_manager.py` and proves properties of the store operations
`add_config`, `modify_config`, `remove_config`, `clear_configs`,
`get_configs` and `config_exists`.

The durable state of the SQLite table `dns_configs` is modelled as a list
of records in insertion order (SQLite returns the rows of this table in
rowid order, which for this usage is insertion order).  Each operation is
a pure function from the state to either a new state or a classified
error, mirroring the Python code's exception behaviour:

* `ValueError` raised for a duplicate name  ↦ `DbError.duplicateName`
* `ValueError` raised for a missing record  ↦ `DbError.notFound`
* `RuntimeError` wrapping a database error  ↦ `DbError.storageFault`

A second, transaction-aware model (`Conn`, at the end of the definitions)
mirrors the Python `sqlite3` connection with its implicit `BEGIN` and
explicit `commit`, and is used to analyse the behaviour of `add_config`
when the underlying `commit` raises a database error.
-/

namespace DnsMaster

/-- One row of the `dns_configs` table: columns
`(name, primary_address, secondary_address, description)`, in the order
declared by `_create_table`.  `secondary_address` and `description` are
nullable (`None` in Python, `Option.none` here). -/
structure DnsConfig where
  name : String
  primary_address : String
  secondary_address : Option String
  description : Option String
deriving DecidableEq, Repr

/-- The committed contents of the `dns_configs` table, in insertion order. -/
abbrev Store := List DnsConfig

/-- The error classification used by `DataBaseManager`:
`ValueError` for duplicate names and missing records, `RuntimeError`
for lower-level `sqlite3` database errors. -/
inductive DbError where
  | duplicateName
  | notFound
  | storageFault
deriving DecidableEq, Repr

instance {ε α : Type} [DecidableEq ε] [DecidableEq α] : DecidableEq (Except ε α) := fun
  | .error e, .error e' => decidable_of_iff (e = e') (by simp)
  | .error _, .ok _ => isFalse (by simp)
  | .ok _, .error _ => isFalse (by simp)
  | .ok a, .ok a' => decidable_of_iff (a = a') (by simp)

/-- `config_exists`: `SELECT 1 FROM dns_configs WHERE name = ?` followed by
`fetchone() is not None`. -/
def config_exists (name : String) (s : Store) : Bool :=
  s.any fun r => r.name == name

/-- Python truthiness of an `Optional[str]` value (`if name:`):
true exactly when the value is present and not the empty string. -/
def truthy (o : Option String) : Bool :=
  match o with
  | none => false
  | some v => v != ""

/-- `add_config`: raises `ValueError` when `config_exists(name)`, otherwise
inserts the row `(name, primary_address, secondary_address, description)`
and commits.  The code performs no emptiness validation of `name` or
`primary_address`; the SQLite `NOT NULL` constraints only reject SQL
`NULL`, which the required `str` parameters can never be. -/
def add_config (s : Store) (name primary_address : String)
    (secondary_address description : Option String) : Except DbError Store :=
  if config_exists name s then
    .error .duplicateName
  else
    .ok (s ++ [⟨name, primary_address, secondary_address, description⟩])

/-- The record produced by the `UPDATE` statement of `modify_config` for a
row matched by `WHERE name = identifier`: a `SET` clause is generated for
`name` when it is truthy (`if name:`) and for each of the other three
fields when it is not `None` (`is not None`), so exactly those fields are
overwritten. -/
def updatedRecord (r : DnsConfig) (name primary_address secondary_address
    description : Option String) : DnsConfig :=
  { name := if truthy name then name.getD r.name else r.name
    primary_address := primary_address.getD r.primary_address
    secondary_address := match secondary_address with
      | none => r.secondary_address
      | some v => some v
    description := match description with
      | none => r.description
      | some v => some v }

/-- Whether `modify_config` generates at least one `SET` clause: `name`
contributes one when truthy, the other three when not `None`. -/
def hasSetClause (name primary_address secondary_address
    description : Option String) : Bool :=
  truthy name || primary_address.isSome || secondary_address.isSome
    || description.isSome

/-- `modify_config`: checks `config_exists(identifier)` (else `ValueError`,
classified `notFound`); then the rename-collision check
`if name and name != identifier and self.config_exists(name)` (else
`ValueError`, classified `duplicateName`); then builds the `UPDATE`
statement.  When no `SET` clause was generated the statement
`UPDATE dns_configs SET WHERE name = ?` is a syntax error, so
`cursor.execute` raises `sqlite3.OperationalError` (a `DatabaseError`),
the transaction is rolled back and `RuntimeError` is raised (classified
`storageFault`).  Otherwise the `UPDATE` rewrites every row matched by
`WHERE name = identifier`; a zero rowcount raises `ValueError`
(classified `notFound`); finally the transaction commits. -/
def modify_config (s : Store) (identifier : String)
    (name primary_address secondary_address description : Option String) :
    Except DbError Store :=
  if !(config_exists identifier s) then
    .error .notFound
  else if truthy name && (name.getD "" != identifier)
      && config_exists (name.getD "") s then
    .error .duplicateName
  else if !(hasSetClause name primary_address secondary_address description) then
    .error .storageFault
  else
    let s' := s.map fun r =>
      if r.name == identifier then
        updatedRecord r name primary_address secondary_address description
      else r
    if s.countP (fun r => r.name == identifier) == 0 then
      .error .notFound
    else
      .ok s'

/-- `remove_config`: checks `config_exists(identifier)` (else `ValueError`,
classified `notFound`); then `DELETE FROM dns_configs WHERE name = ?`
inside a transaction; a zero rowcount raises `ValueError` (classified
`notFound`); finally commits. -/
def remove_config (s : Store) (identifier : String) : Except DbError Store :=
  if !(config_exists identifier s) then
    .error .notFound
  else
    let s' := s.filter fun r => !(r.name == identifier)
    if s.countP (fun r => r.name == identifier) == 0 then
      .error .notFound
    else
      .ok s'

/-- `clear_configs`: `DELETE FROM dns_configs` inside a transaction, then
commit; with no database fault this always succeeds, on the empty table
as well. -/
def clear_configs (_s : Store) : Except DbError Store :=
  .ok []

/-- ASCII-only lower-casing, as applied by SQLite's default `LIKE`
operator: `A`–`Z` fold to `a`–`z`, every other character is unchanged. -/
def lowerAscii (c : Char) : Char :=
  if 'A' ≤ c ∧ c ≤ 'Z' then Char.ofNat (c.toNat + 32) else c

/-- SQLite's default `LIKE` operator (no `ESCAPE` clause, default
`case_sensitive_like` off): `%` matches any sequence of zero or more
characters, `_` matches exactly one character, and any other pattern
character matches a single character up to ASCII case folding.
`%` is handled by matching the rest of the pattern against every suffix
of the candidate string. -/
def likeMatch : List Char → List Char → Bool
  | [], s => s.isEmpty
  | p :: ps, s =>
    if p = '%' then
      s.tails.any fun t => likeMatch ps t
    else
      match s with
      | [] => false
      | c :: cs => (p == '_' || lowerAscii p == lowerAscii c) && likeMatch ps cs

/-- The pattern `f"%{filter}%"` built by `get_configs`. -/
def likePattern (filter : String) : List Char :=
  '%' :: (filter.data ++ ['%'])

/-- `get_configs`: `SELECT * FROM dns_configs`, with
`WHERE name LIKE '%filter%'` appended only when the Python value `filter`
is truthy (`if filter:` — so `None` and `""` both return every row).
Rows come back in insertion order; every row structurally has the four
columns, so the row-length validation never fails and no error is
possible without a database fault. -/
def get_configs (s : Store) (filter : Option String) : List DnsConfig :=
  if truthy filter then
    s.filter fun r => likeMatch (likePattern (filter.getD "")) r.name.data
  else
    s

/-- The four store operations of the spec (`Create`, `Update`,
`DeleteOne`, `DeleteAll`) with the arguments of their implementations. -/
inductive StoreOp where
  | create (name primary_address : String)
      (secondary_address description : Option String)
  | update (identifier : String)
      (name primary_address secondary_address description : Option String)
  | deleteOne (identifier : String)
  | deleteAll

/-- Run one operation on the committed state: an operation that raises
leaves the committed state unchanged (every error of `add_config` is
raised before or instead of a commit, and the error paths of
`modify_config`, `remove_config` and `clear_configs` roll back). -/
def applyOp (s : Store) : StoreOp → Store
  | .create n p sec d =>
    match add_config s n p sec d with
    | .ok s' => s'
    | .error _ => s
  | .update id nm p sec d =>
    match modify_config s id nm p sec d with
    | .ok s' => s'
    | .error _ => s
  | .deleteOne id =>
    match remove_config s id with
    | .ok s' => s'
    | .error _ => s
  | .deleteAll =>
    match clear_configs s with
    | .ok s' => s'
    | .error _ => s

/-- Run a sequence of store operations. -/
def applyOps (s : Store) (ops : List StoreOp) : Store :=
  ops.foldl applyOp s

/-- The central invariant: no two live records share a `name`. -/
def namesNodup (s : Store) : Prop :=
  (s.map DnsConfig.name).Nodup

instance (s : Store) : Decidable (namesNodup s) := by
  unfold namesNodup; infer_instance

/-- Modelled from the spec's words for the Query contract: `needle` occurs
in `hay` as a substring (unanchored contains-semantics) — i.e. `needle`
is a contiguous segment of `hay`.  Character comparison is on-the-nose,
so applied to raw character lists this is the spec's case-sensitive
containment; applied to `lowerAscii`-mapped lists it is ASCII
case-insensitive containment.  Used to compare the spec's announced
filter semantics with what `get_configs` actually computes. -/
def containsSub (hay needle : List Char) : Bool :=
  hay.tails.any fun t => needle.isPrefixOf t

/-- A filter without the `LIKE` wildcard characters `%` and `_`. -/
def noWild (l : List Char) : Prop :=
  ('%' ∉ l) ∧ ('_' ∉ l)

instance (l : List Char) : Decidable (noWild l) := by
  unfold noWild; infer_instance

/-!
## Connection-level model for fault analysis

`DataBaseManager` keeps one `sqlite3` connection for its whole lifetime
(the CLI runs with `chain=True`, so several commands share it within one
invocation).  Python's `sqlite3` module in its default mode implicitly
issues `BEGIN` before a data-modifying statement when no transaction is
open; `connection.commit()` makes the pending changes durable.  When
`commit()` itself raises a database error (e.g. `SQLITE_BUSY` because
another process holds the write lock), the transaction stays open and its
changes stay pending on the connection until a rollback.
-/

/-- A `sqlite3` connection: the durable committed table plus the working
view of the open transaction, if one is open. -/
structure Conn where
  committed : Store
  txn : Option Store
deriving DecidableEq, Repr

/-- What a `SELECT` on this connection sees: the open transaction's
working view when a transaction is open, otherwise the committed table. -/
def connView (c : Conn) : Store :=
  (c.txn).getD c.committed

/-- Execute a data-modifying statement: implicit `BEGIN` when no
transaction is open, then apply the statement to the working view. -/
def execWrite (c : Conn) (f : Store → Store) : Conn :=
  { c with txn := some (f (connView c)) }

/-- A successful `connection.commit()`: the working view becomes durable
and the transaction is closed. -/
def execCommit (c : Conn) : Conn :=
  match c.txn with
  | some v => { committed := v, txn := none }
  | none => c

/-- `add_config` at the connection level, with a fault switch for the
`commit()` call.  The source runs `INSERT` then `commit()` inside `try`,
and every `except` arm re-raises as `RuntimeError` without calling
`rollback()`: when `commit()` raises, the inserted row stays pending in
the transaction left open on the connection. -/
def add_config_conn (c : Conn) (commitFault : Bool)
    (name primary_address : String)
    (secondary_address description : Option String) :
    Except DbError Unit × Conn :=
  if config_exists name (connView c) then
    (.error .duplicateName, c)
  else
    let c1 := execWrite c fun v =>
      v ++ [⟨name, primary_address, secondary_address, description⟩]
    if commitFault then
      (.error .storageFault, c1)
    else
      (.ok (), execCommit c1)

/-!
## Properties of the `LIKE` pattern matcher

These lemmas characterise `likeMatch` on the patterns `get_configs`
builds: for a wildcard-free filter `f`, matching `'%' ++ f ++ '%'` is the
same as ASCII-case-insensitive substring containment.
-/

theorem bool_eq_of_iff {a b : Bool} (h : a = true ↔ b = true) : a = b := by
  cases a <;> cases b <;> simp_all

theorem containsSub_iff (hay needle : List Char) :
    containsSub hay needle = true ↔ needle <:+: hay := by
  unfold containsSub
  rw [List.any_eq_true]
  constructor
  · rintro ⟨t, ht, hp⟩
    exact List.infix_iff_prefix_suffix.mpr
      ⟨t, List.isPrefixOf_iff_prefix.mp hp, (List.mem_tails t hay).mp ht⟩
  · intro h
    obtain ⟨t, hpre, hsuf⟩ := List.infix_iff_prefix_suffix.mp h
    exact ⟨t, (List.mem_tails t hay).mpr hsuf, List.isPrefixOf_iff_prefix.mpr hpre⟩

theorem containsSub_nil (hay : List Char) : containsSub hay [] = true := by
  unfold containsSub
  rw [List.any_eq_true]
  exact ⟨[], (List.mem_tails [] hay).mpr List.nil_suffix, rfl⟩

theorem likeMatch_pct_eq (ps : List Char) (s : List Char) :
    likeMatch ('%' :: ps) s = (s.tails.any fun t => likeMatch ps t) := by
  simp [likeMatch]

theorem likeMatch_cons_nil (p : Char) (ps : List Char) (hp : p ≠ '%') :
    likeMatch (p :: ps) [] = false := by
  simp [likeMatch, hp]

theorem likeMatch_cons_cons (p : Char) (ps : List Char) (hp : p ≠ '%')
    (c : Char) (cs : List Char) :
    likeMatch (p :: ps) (c :: cs) =
      ((p == '_' || lowerAscii p == lowerAscii c) && likeMatch ps cs) := by
  simp [likeMatch, hp]

theorem likeMatch_pct_nil (s : List Char) : likeMatch ['%'] s = true := by
  rw [likeMatch_pct_eq, List.any_eq_true]
  exact ⟨[], (List.mem_tails [] s).mpr List.nil_suffix, rfl⟩

theorem likeMatch_noWild_eq :
    ∀ (f : List Char), noWild f → ∀ s : List Char,
      (likeMatch f s = true ↔ f.map lowerAscii = s.map lowerAscii)
  | [], _, s => by cases s <;> simp [likeMatch]
  | p :: ps, hf, s => by
    have hp1 : p ≠ '%' := by rintro rfl; exact hf.1 (List.mem_cons_self _ _)
    have hp2 : p ≠ '_' := by rintro rfl; exact hf.2 (List.mem_cons_self _ _)
    have hf' : noWild ps :=
      ⟨fun h => hf.1 (List.mem_cons_of_mem _ h),
       fun h => hf.2 (List.mem_cons_of_mem _ h)⟩
    cases s with
    | nil =>
      rw [likeMatch_cons_nil p ps hp1]
      simp
    | cons c cs =>
      have ih := likeMatch_noWild_eq ps hf' cs
      rw [likeMatch_cons_cons p ps hp1 c cs]
      simp only [Bool.and_eq_true, Bool.or_eq_true, beq_iff_eq,
        List.map_cons, List.cons.injEq, ih]
      constructor
      · rintro ⟨h | h, h2⟩
        · exact absurd h hp2
        · exact ⟨h, h2⟩
      · rintro ⟨h1, h2⟩
        exact ⟨Or.inr h1, h2⟩

theorem likeMatch_concat_pct :
    ∀ (f : List Char), noWild f → ∀ s : List Char,
      (likeMatch (f ++ ['%']) s = true ↔
        ∃ u, u <+: s ∧ f.map lowerAscii = u.map lowerAscii)
  | [], _, s => by
    constructor
    · intro _
      exact ⟨[], List.nil_prefix, rfl⟩
    · intro _
      exact likeMatch_pct_nil s
  | p :: ps, hf, s => by
    have hp1 : p ≠ '%' := by rintro rfl; exact hf.1 (List.mem_cons_self _ _)
    have hp2 : p ≠ '_' := by rintro rfl; exact hf.2 (List.mem_cons_self _ _)
    have hf' : noWild ps :=
      ⟨fun h => hf.1 (List.mem_cons_of_mem _ h),
       fun h => hf.2 (List.mem_cons_of_mem _ h)⟩
    cases s with
    | nil =>
      rw [List.cons_append, likeMatch_cons_nil _ _ hp1]
      constructor
      · intro h
        exact absurd h Bool.false_ne_true
      · rintro ⟨u, hu, hmap⟩
        rw [List.prefix_nil.mp hu] at hmap
        simp at hmap
    | cons c cs =>
      have ih := likeMatch_concat_pct ps hf' cs
      rw [List.cons_append, likeMatch_cons_cons _ _ hp1]
      simp only [Bool.and_eq_true, Bool.or_eq_true, beq_iff_eq, ih]
      constructor
      · rintro ⟨hc, u', hu', hmap⟩
        have hpc : lowerAscii p = lowerAscii c := by
          rcases hc with h | h
          · exact absurd h hp2
          · exact h
        refine ⟨c :: u', List.cons_prefix_cons.mpr ⟨rfl, hu'⟩, ?_⟩
        rw [List.map_cons, List.map_cons, hpc, hmap]
      · rintro ⟨u, hu, hmap⟩
        cases u with
        | nil => simp at hmap
        | cons x u' =>
          obtain ⟨rfl, hu'⟩ := List.cons_prefix_cons.mp hu
          simp only [List.map_cons, List.cons.injEq] at hmap
          exact ⟨Or.inr hmap.1, u', hu', hmap.2⟩

theorem likeMatch_likePattern_iff (f : List Char) (hf : noWild f) (s : List Char) :
    likeMatch ('%' :: (f ++ ['%'])) s = true ↔
      f.map lowerAscii <:+: s.map lowerAscii := by
  have step1 : likeMatch ('%' :: (f ++ ['%'])) s = true ↔
      ∃ t, t <:+ s ∧ likeMatch (f ++ ['%']) t = true := by
    rw [likeMatch_pct_eq, List.any_eq_true]
    constructor
    · rintro ⟨t, ht, hm⟩
      exact ⟨t, (List.mem_tails t s).mp ht, hm⟩
    · rintro ⟨t, ht, hm⟩
      exact ⟨t, (List.mem_tails t s).mpr ht, hm⟩
  rw [step1]
  constructor
  · rintro ⟨t, hts, hm⟩
    obtain ⟨u, hut, hmap⟩ := (likeMatch_concat_pct f hf t).mp hm
    exact List.infix_iff_prefix_suffix.mpr
      ⟨t.map lowerAscii, hmap ▸ List.IsPrefix.map lowerAscii hut,
        List.IsSuffix.map lowerAscii hts⟩
  · intro h
    obtain ⟨T, hpre, hsuf⟩ := List.infix_iff_prefix_suffix.mp h
    have hTdrop := List.suffix_iff_eq_drop.mp hsuf
    have hpre' := List.prefix_iff_eq_take.mp hpre
    refine ⟨s.drop ((s.map lowerAscii).length - T.length),
      List.drop_suffix _ _, ?_⟩
    rw [likeMatch_concat_pct f hf]
    refine ⟨(s.drop ((s.map lowerAscii).length - T.length)).take f.length,
      List.take_prefix _ _, ?_⟩
    have hT : (s.drop ((s.map lowerAscii).length - T.length)).map lowerAscii
        = T := by
      rw [List.map_drop]
      exact hTdrop.symm
    calc f.map lowerAscii
        = T.take (f.map lowerAscii).length := hpre'
      _ = T.take f.length := by rw [List.length_map]
      _ = ((s.drop ((s.map lowerAscii).length - T.length)).map lowerAscii).take
            f.length := by rw [hT]
      _ = ((s.drop ((s.map lowerAscii).length - T.length)).take
            f.length).map lowerAscii := (List.map_take _ _ _).symm

theorem likeMatch_self_concat : ∀ l : List Char, likeMatch (l ++ ['%']) l = true
  | [] => likeMatch_pct_nil []
  | c :: cs => by
    by_cases hc : c = '%'
    · subst hc
      rw [List.cons_append, likeMatch_pct_eq, List.any_eq_true]
      exact ⟨cs, (List.mem_tails cs ('%' :: cs)).mpr (List.suffix_cons '%' cs),
        likeMatch_self_concat cs⟩
    · rw [List.cons_append, likeMatch_cons_cons _ _ hc, Bool.and_eq_true,
        Bool.or_eq_true]
      exact ⟨Or.inr (by simp), likeMatch_self_concat cs⟩

theorem likeMatch_likePattern_self (f : String) :
    likeMatch (likePattern f) f.data = true := by
  show likeMatch ('%' :: (f.data ++ ['%'])) f.data = true
  rw [likeMatch_pct_eq, List.any_eq_true]
  exact ⟨f.data, (List.mem_tails f.data f.data).mpr (List.suffix_refl f.data),
    likeMatch_self_concat f.data⟩

/-!
## Name-uniqueness helper lemmas
-/

theorem config_exists_iff_mem (n : String) (s : Store) :
    config_exists n s = true ↔ n ∈ s.map DnsConfig.name := by
  unfold config_exists
  rw [List.any_eq_true]
  constructor
  · rintro ⟨r, hr, hb⟩
    exact List.mem_map.mpr ⟨r, hr, beq_iff_eq.mp hb⟩
  · intro h
    obtain ⟨r, hr, hn⟩ := List.mem_map.mp h
    exact ⟨r, hr, beq_iff_eq.mpr hn⟩

theorem nodup_map_replace {α : Type} [DecidableEq α] :
    ∀ (l : List α) (a g : α), l.Nodup → g ∉ l →
      (l.map fun x => if x = a then g else x).Nodup
  | [], _, _, _, _ => List.nodup_nil
  | h :: t, a, g, hnd, hg => by
    rw [List.nodup_cons] at hnd
    have hgh : g ≠ h := fun e => hg (by rw [e]; exact List.mem_cons_self h t)
    have hgt : g ∉ t := fun m => hg (List.mem_cons_of_mem h m)
    rw [List.map_cons, List.nodup_cons]
    refine ⟨?_, nodup_map_replace t a g hnd.2 hgt⟩
    intro hmem
    obtain ⟨x, hxt, hxe⟩ := List.mem_map.mp hmem
    by_cases hha : h = a
    · rw [if_pos hha] at hxe
      by_cases hxa : x = a
      · rw [if_pos hxa] at hxe
        exact hnd.1 ((hxa.trans hha.symm) ▸ hxt)
      · rw [if_neg hxa] at hxe
        exact hgt (hxe ▸ hxt)
    · rw [if_neg hha] at hxe
      by_cases hxa : x = a
      · rw [if_pos hxa] at hxe
        exact hgh hxe
      · rw [if_neg hxa] at hxe
        exact hnd.1 (hxe ▸ hxt)

/-- The new name written into the row matched by `modify_config`'s
`UPDATE`: the supplied one when truthy, otherwise the identifier. -/
theorem name_of_modified (id : String) (nm p sec d : Option String)
    (s : Store) :
    (s.map fun r =>
        if r.name == id then updatedRecord r nm p sec d else r).map
      DnsConfig.name =
    (s.map DnsConfig.name).map
      (fun x => if x = id then (if truthy nm then nm.getD "" else id) else x) := by
  rw [List.map_map, List.map_map]
  apply List.map_congr_left
  intro r _
  simp only [Function.comp_apply]
  by_cases hr : r.name = id
  · rw [if_pos (beq_iff_eq.mpr hr), if_pos hr]
    cases nm with
    | none => simp [updatedRecord, truthy, hr]
    | some v =>
      by_cases hv : v = ""
      · simp [updatedRecord, truthy, hv, hr]
      · simp [updatedRecord, truthy, hv]
  · rw [if_neg (by simpa using hr), if_neg hr]

theorem namesNodup_applyOp (s : Store) (op : StoreOp) (h : namesNodup s) :
    namesNodup (applyOp s op) := by
  cases op with
  | create n p sec d =>
    by_cases he : config_exists n s = true
    · simp [applyOp, add_config, he, h]
    · simp only [Bool.not_eq_true] at he
      simp only [applyOp, add_config, he, Bool.false_eq_true, if_false]
      unfold namesNodup
      rw [List.map_append, List.nodup_append]
      refine ⟨h, by simp, ?_⟩
      intro x hx hx1
      simp only [List.map_cons, List.map_nil, List.mem_singleton] at hx1
      rw [hx1] at hx
      rw [← config_exists_iff_mem] at hx
      rw [hx] at he
      cases he
  | update id nm p sec d =>
    by_cases h1 : config_exists id s = true
    · by_cases hB : (truthy nm && (nm.getD "" != id)
          && config_exists (nm.getD "") s) = true
      · simp [applyOp, modify_config, h1, hB, h]
      · by_cases hS : hasSetClause nm p sec d = true
        · by_cases hc : (s.countP fun r => r.name == id) == 0
          · simp [applyOp, modify_config, h1, hB, hS, hc, h]
          · simp only [Bool.not_eq_true] at hB hc
            simp only [applyOp, modify_config, h1, hB, hS, hc, Bool.not_true,
              Bool.false_eq_true, if_false, if_true, Bool.not_false]
            unfold namesNodup
            rw [name_of_modified]
            by_cases ht : truthy nm = true
            · by_cases hgid : nm.getD "" = id
              · rw [ht, if_pos rfl, hgid]
                have hcongr : ∀ x ∈ s.map DnsConfig.name,
                    (if x = id then id else x) = x := by
                  intro x _
                  by_cases hx : x = id <;> simp [hx]
                rw [List.map_congr_left hcongr]
                simpa using h
              · have hex : config_exists (nm.getD "") s = false := by
                  by_contra hex'
                  simp only [Bool.not_eq_false] at hex'
                  rw [ht, hex', bne_iff_ne.mpr hgid] at hB
                  cases hB
                rw [ht, if_pos rfl]
                apply nodup_map_replace _ id (nm.getD "") h
                rw [← config_exists_iff_mem] at *
                simp [hex]
            · simp only [Bool.not_eq_true] at ht
              rw [ht, if_neg (by simp)]
              have hcongr : ∀ x ∈ s.map DnsConfig.name,
                  (if x = id then id else x) = x := by
                intro x _
                by_cases hx : x = id <;> simp [hx]
              rw [List.map_congr_left hcongr]
              simpa using h
        · simp only [Bool.not_eq_true] at hS
          simp [applyOp, modify_config, h1, hB, hS, h]
    · simp only [Bool.not_eq_true] at h1
      simp [applyOp, modify_config, h1, h]
  | deleteOne id =>
    by_cases h1 : config_exists id s = true
    · by_cases hc : (s.countP fun r => r.name == id) == 0
      · simp [applyOp, remove_config, h1, hc, h]
      · simp only [Bool.not_eq_true] at hc
        simp only [applyOp, remove_config, h1, hc, if_true, Bool.false_eq_true,
          if_false]
        exact List.Nodup.sublist
          (List.Sublist.map DnsConfig.name (List.filter_sublist s)) h
    · simp only [Bool.not_eq_true] at h1
      simp [applyOp, remove_config, h1, h]
  | deleteAll =>
    simp [applyOp, clear_configs, namesNodup]

theorem namesNodup_applyOps (s : Store) (ops : List StoreOp)
    (h : namesNodup s) : namesNodup (applyOps s ops) := by
  induction ops generalizing s with
  | nil => exact h
  | cons op rest ih =>
    simp only [applyOps, List.foldl_cons]
    exact ih _ (namesNodup_applyOp s op h)

/-!
## Claim theorems
-/

/-- C1: starting from any store whose live records have pairwise distinct
names (in particular the empty store created by `_create_table`), any
sequence of Create/Update/DeleteOne/DeleteAll operations preserves that
no two live records share a name; and on a store containing a record
named `n`, Create of `n` fails with `duplicateName` and leaves the record
set exactly as it was. -/
theorem claim1_uniqueness :
    (∀ (s : Store) (ops : List StoreOp), namesNodup s →
      namesNodup (applyOps s ops)) ∧
    (∀ (s : Store) (n p : String) (sec d : Option String),
      config_exists n s = true →
        add_config s n p sec d = .error .duplicateName ∧
        applyOp s (.create n p sec d) = s) := by
  constructor
  · exact fun s ops => namesNodup_applyOps s ops
  · intro s n p sec d hex
    constructor
    · simp [add_config, hex]
    · simp [applyOp, add_config, hex]

/-- Witness for C1 at concrete inputs: a duplicate Create is rejected and
changes nothing, and a sequence with a duplicate Create keeps names
pairwise distinct. -/
theorem claim1_uniqueness_witness :
    namesNodup (applyOps []
      [.create "test1" "192.168.1.1" none none,
       .create "test1" "192.168.1.9" none none,
       .create "test2" "192.168.1.2" (some "192.168.1.3")
         (some "Secondary DNS")]) ∧
    (add_config [⟨"test1", "192.168.1.1", none, none⟩] "test1" "192.168.1.9"
        none none = .error .duplicateName ∧
      applyOp [⟨"test1", "192.168.1.1", none, none⟩]
        (.create "test1" "192.168.1.9" none none)
        = [⟨"test1", "192.168.1.1", none, none⟩]) :=
  ⟨claim1_uniqueness.1 [] _ (by decide),
   claim1_uniqueness.2 [⟨"test1", "192.168.1.1", none, none⟩] "test1"
     "192.168.1.9" none none (by decide)⟩

/-- C3 counterexample: Create with an empty name, and Create with an empty
primary address, both succeed and insert the record — `add_config` has no
InvalidArgument validation at all, refuting the claim that such calls
fail and leave the store unchanged. -/
theorem claim3_counterexample :
    add_config [] "" "1.2.3.4" none none = .ok [⟨"", "1.2.3.4", none, none⟩] ∧
    add_config [] "x" "" none none = .ok [⟨"x", "", none, none⟩] := by decide

/-- C3 (amended): `add_config` performs no emptiness validation: with an
empty `name` or an empty `primary_address`, provided the name is not
already taken, the call succeeds and appends the record as given. -/
theorem claim3_no_empty_validation :
    (∀ (s : Store) (p : String) (sec d : Option String),
      config_exists "" s = false →
        add_config s "" p sec d = .ok (s ++ [⟨"", p, sec, d⟩])) ∧
    (∀ (s : Store) (n : String) (sec d : Option String),
      config_exists n s = false →
        add_config s n "" sec d = .ok (s ++ [⟨n, "", sec, d⟩])) := by
  constructor <;>
    · intro s a sec d hne
      simp [add_config, hne]

/-- Witness for C3 (amended) at concrete inputs. -/
theorem claim3_no_empty_validation_witness :
    add_config [⟨"a", "1.1.1.1", none, none⟩] "" "1.2.3.4" none none
      = .ok [⟨"a", "1.1.1.1", none, none⟩, ⟨"", "1.2.3.4", none, none⟩] ∧
    add_config [⟨"a", "1.1.1.1", none, none⟩] "b" "" none none
      = .ok [⟨"a", "1.1.1.1", none, none⟩, ⟨"b", "", none, none⟩] :=
  ⟨claim3_no_empty_validation.1 [⟨"a", "1.1.1.1", none, none⟩] "1.2.3.4"
     none none (by decide),
   claim3_no_empty_validation.2 [⟨"a", "1.1.1.1", none, none⟩] "b"
     none none (by decide)⟩

/-- C6: Update and DeleteOne on an identifier matching no live record each
fail with `notFound` and leave the store unchanged. -/
theorem claim6_not_found (s : Store) (identifier : String)
    (nm p sec d : Option String)
    (h : config_exists identifier s = false) :
    modify_config s identifier nm p sec d = .error .notFound ∧
    remove_config s identifier = .error .notFound ∧
    applyOp s (.update identifier nm p sec d) = s ∧
    applyOp s (.deleteOne identifier) = s := by
  refine ⟨?_, ?_, ?_, ?_⟩ <;> simp [modify_config, remove_config, applyOp, h]

/-- Witness for C6 at concrete inputs. -/
theorem claim6_not_found_witness :
    modify_config [⟨"test1", "192.168.1.1", none, none⟩] "nonexistent"
        none (some "192.168.1.20") none none = .error .notFound ∧
    remove_config [⟨"test1", "192.168.1.1", none, none⟩] "nonexistent"
      = .error .notFound ∧
    applyOp [⟨"test1", "192.168.1.1", none, none⟩]
        (.update "nonexistent" none (some "192.168.1.20") none none)
      = [⟨"test1", "192.168.1.1", none, none⟩] ∧
    applyOp [⟨"test1", "192.168.1.1", none, none⟩] (.deleteOne "nonexistent")
      = [⟨"test1", "192.168.1.1", none, none⟩] :=
  claim6_not_found [⟨"test1", "192.168.1.1", none, none⟩] "nonexistent"
    none (some "192.168.1.20") none none (by decide)

/-- C7 (code-bug evidence): at the connection level, a Create whose
`commit()` raises a database error surfaces `storageFault` with the
inserted row still pending in an open transaction — `add_config`'s
`except` arms never call `rollback()` — and the next successful operation
on the same connection then commits that leftover row together with its
own, so the durable store ends up containing a record whose Create had
reported failure.  This contradicts the claim that the transaction is
rolled back and the store is exactly as before. -/
theorem claim7_add_config_no_rollback :
    add_config_conn ⟨[], none⟩ true "a" "1.1.1.1" none none
      = (.error .storageFault, ⟨[], some [⟨"a", "1.1.1.1", none, none⟩]⟩) ∧
    add_config_conn ⟨[], some [⟨"a", "1.1.1.1", none, none⟩]⟩ false
        "b" "2.2.2.2" none none
      = (.ok (), ⟨[⟨"a", "1.1.1.1", none, none⟩, ⟨"b", "2.2.2.2", none, none⟩],
          none⟩) := by decide

/-- C8: DeleteAll on the empty store succeeds and leaves it empty, and on
every store state running DeleteAll twice ends in the same state as
running it once. -/
theorem claim8_clear_idempotent :
    clear_configs ([] : Store) = .ok [] ∧
    ∀ s : Store,
      applyOp (applyOp s .deleteAll) .deleteAll = applyOp s .deleteAll :=
  ⟨rfl, fun _ => rfl⟩

/-- C10: on a store containing the identifier, Update supplying none of
the four new field values does not succeed as a no-op: the generated
`UPDATE` statement has an empty `SET` clause, `sqlite3` rejects it as a
syntax error, and the call fails with `storageFault` (`RuntimeError`),
leaving the store unchanged. -/
theorem claim10_empty_update_fails (s : Store) (identifier : String)
    (h : config_exists identifier s = true) :
    modify_config s identifier none none none none = .error .storageFault ∧
    applyOp s (.update identifier none none none none) = s := by
  constructor <;> simp [modify_config, applyOp, hasSetClause, truthy, h]

/-- Witness for C10 at a concrete input. -/
theorem claim10_empty_update_fails_witness :
    modify_config [⟨"test1", "192.168.1.1", none, none⟩] "test1"
        none none none none = .error .storageFault ∧
    applyOp [⟨"test1", "192.168.1.1", none, none⟩]
        (.update "test1" none none none none)
      = [⟨"test1", "192.168.1.1", none, none⟩] :=
  claim10_empty_update_fails [⟨"test1", "192.168.1.1", none, none⟩] "test1"
    (by decide)

/-- C2 counterexample: SQLite's `LIKE` is ASCII-case-insensitive, so Query
with filter `test` returns the record named `Test1` although `Test1` does
not contain `test` as a case-sensitive substring — refuting the claimed
case-sensitive contains-semantics. -/
theorem claim2_counterexample :
    get_configs [⟨"Test1", "1.1.1.1", none, none⟩] (some "test")
      = [⟨"Test1", "1.1.1.1", none, none⟩] ∧
    containsSub "Test1".data "test".data = false := by decide

/-- C2 (amended): Query with no filter returns every record in insertion
order; Query with a filter free of the `LIKE` wildcards `%` and `_`
returns exactly the records whose name contains the filter as an
ASCII-case-insensitive unanchored substring, in insertion order; and when
nothing matches the result is the empty sequence. -/
theorem claim2_query_filter :
    (∀ s : Store, get_configs s none = s) ∧
    (∀ (s : Store) (f : String), noWild f.data →
      get_configs s (some f) =
        s.filter fun r =>
          containsSub (r.name.data.map lowerAscii) (f.data.map lowerAscii)) ∧
    (∀ (s : Store) (f : String), noWild f.data →
      (∀ r ∈ s, containsSub (r.name.data.map lowerAscii)
          (f.data.map lowerAscii) = false) →
      get_configs s (some f) = []) := by
  have main : ∀ (s : Store) (f : String), noWild f.data →
      get_configs s (some f) = s.filter fun r =>
        containsSub (r.name.data.map lowerAscii) (f.data.map lowerAscii) := by
    intro s f hf
    by_cases hfe : f = ""
    · subst hfe
      have hall : ∀ r ∈ s, (true : Bool) = containsSub
          (r.name.data.map lowerAscii) (("" : String).data.map lowerAscii) :=
        fun r _ => (containsSub_nil (r.name.data.map lowerAscii)).symm
      calc get_configs s (some "") = s := rfl
        _ = s.filter fun _ => true := (List.filter_true s).symm
        _ = s.filter fun r => containsSub (r.name.data.map lowerAscii)
              (("" : String).data.map lowerAscii) := List.filter_congr hall
    · have ht : truthy (some f) = true := by simp [truthy, hfe]
      unfold get_configs
      rw [if_pos ht]
      apply List.filter_congr
      intro r _
      apply bool_eq_of_iff
      rw [show likePattern ((some f).getD "") = '%' :: (f.data ++ ['%'])
        from rfl]
      rw [likeMatch_likePattern_iff f.data hf, containsSub_iff]
  refine ⟨fun s => rfl, main, fun s f hf hnone => ?_⟩
  rw [main s f hf, List.filter_eq_nil_iff]
  intro r hr
  rw [hnone r hr]
  simp

/-- Witness for C2 (amended), mirroring the spec's test scenario with
records `test1`, `test2`, `test3`. -/
theorem claim2_query_filter_witness :
    get_configs [⟨"test1", "192.168.1.1", none, none⟩,
        ⟨"test2", "192.168.1.2", some "192.168.1.3", some "Secondary DNS"⟩,
        ⟨"test3", "192.168.1.4", none, none⟩] (some "test")
      = [⟨"test1", "192.168.1.1", none, none⟩,
        ⟨"test2", "192.168.1.2", some "192.168.1.3", some "Secondary DNS"⟩,
        ⟨"test3", "192.168.1.4", none, none⟩] ∧
    get_configs [⟨"test1", "192.168.1.1", none, none⟩,
        ⟨"test2", "192.168.1.2", some "192.168.1.3", some "Secondary DNS"⟩,
        ⟨"test3", "192.168.1.4", none, none⟩] (some "nonexistent") = [] ∧
    get_configs [⟨"test1", "192.168.1.1", none, none⟩,
        ⟨"test2", "192.168.1.2", some "192.168.1.3", some "Secondary DNS"⟩,
        ⟨"test3", "192.168.1.4", none, none⟩] none
      = [⟨"test1", "192.168.1.1", none, none⟩,
        ⟨"test2", "192.168.1.2", some "192.168.1.3", some "Secondary DNS"⟩,
        ⟨"test3", "192.168.1.4", none, none⟩] :=
  ⟨(claim2_query_filter.2.1 _ "test" (by decide)).trans (by decide),
   claim2_query_filter.2.2 _ "nonexistent" (by decide) (by decide),
   claim2_query_filter.1 _⟩

/-- C4: on a store with pairwise distinct names containing the record `r`,
Update addressed to `r.name` changes exactly the supplied fields — the
name only when a truthy new name is given, the primary address only when
one is supplied (including an empty string), the secondary address and
description only when non-null — and leaves every omitted field and every
other record untouched.  At least one field must be supplied
(`hasSetClause`); the degenerate no-field call is claim C10, and a
supplied new name must not collide (that case is claim C5). -/
theorem claim4_sparse_update (pre post : Store) (r : DnsConfig)
    (nm p sec d : Option String)
    (hnd : namesNodup (pre ++ r :: post))
    (hset : hasSetClause nm p sec d = true)
    (hnm : ∀ g, nm = some g → g ≠ "" → g ≠ r.name →
      config_exists g (pre ++ r :: post) = false) :
    modify_config (pre ++ r :: post) r.name nm p sec d =
      .ok (pre ++
        { name := if truthy nm then nm.getD r.name else r.name
          primary_address := p.getD r.primary_address
          secondary_address := match sec with
            | none => r.secondary_address
            | some v => some v
          description := match d with
            | none => r.description
            | some v => some v } :: post) := by
  have hrmem : r ∈ pre ++ r :: post :=
    List.mem_append.mpr (Or.inr (List.mem_cons_self r post))
  have hex : config_exists r.name (pre ++ r :: post) = true :=
    (config_exists_iff_mem r.name _).mpr (List.mem_map.mpr ⟨r, hrmem, rfl⟩)
  have hdup : (truthy nm && (nm.getD "" != r.name)
      && config_exists (nm.getD "") (pre ++ r :: post)) = false := by
    cases nm with
    | none => simp [truthy]
    | some g =>
      by_cases hg1 : g = ""
      · simp [truthy, hg1]
      · by_cases hg2 : g = r.name
        · simp [truthy, hg2]
        · simp [truthy, hg1, hnm g rfl hg1 hg2]
  have hcount : ((pre ++ r :: post).countP
      (fun r' => r'.name == r.name) == 0) = false := by
    rw [beq_eq_false_iff_ne]
    intro h0
    rw [List.countP_eq_zero] at h0
    exact h0 r hrmem (by simp)
  rw [namesNodup, List.map_append, List.map_cons, List.nodup_append] at hnd
  obtain ⟨hndpre, hndcons, hdisj⟩ := hnd
  have hpre : ∀ x ∈ pre, x.name ≠ r.name := by
    intro x hx heq
    exact hdisj (List.mem_map.mpr ⟨x, hx, rfl⟩)
      (heq ▸ List.mem_cons_self r.name (post.map DnsConfig.name))
  have hpost : ∀ x ∈ post, x.name ≠ r.name := by
    intro x hx heq
    rw [List.nodup_cons] at hndcons
    exact hndcons.1 (heq ▸ List.mem_map.mpr ⟨x, hx, rfl⟩)
  simp only [modify_config, hex, hdup, hset, hcount, Bool.not_true,
    Bool.false_eq_true, if_false, if_true]
  rw [List.map_append, List.map_cons]
  have hmappre : pre.map (fun x =>
      if x.name == r.name then updatedRecord x nm p sec d else x) = pre := by
    rw [List.map_congr_left (fun x hx => if_neg (by simp [hpre x hx]))]
    simp
  have hmappost : post.map (fun x =>
      if x.name == r.name then updatedRecord x nm p sec d else x) = post := by
    rw [List.map_congr_left (fun x hx => if_neg (by simp [hpost x hx]))]
    simp
  rw [hmappre, hmappost, if_pos (by simp : (r.name == r.name) = true)]
  cases sec <;> cases d <;> rfl

/-- Witness for C4 at the spec's own example: store
`("test1","192.168.1.1",None,None)`, update supplying only
`primary_address` and `description`. -/
theorem claim4_sparse_update_witness :
    modify_config [⟨"test1", "192.168.1.1", none, none⟩] "test1"
        none (some "192.168.1.10") none (some "Updated")
      = .ok [⟨"test1", "192.168.1.10", none, some "Updated"⟩] :=
  claim4_sparse_update [] [] ⟨"test1", "192.168.1.1", none, none⟩
    none (some "192.168.1.10") none (some "Updated")
    (by decide) (by decide) (fun g hg => nomatch hg)

/-- C5: on a store containing the identifier, Update fails with
`duplicateName` exactly when the supplied new name is non-empty, differs
from the identifier, and is already the name of a live record; and in that
collision case the store is left exactly as before. -/
theorem claim5_rename_collision (s : Store) (identifier : String)
    (nm p sec d : Option String)
    (hid : config_exists identifier s = true) :
    (modify_config s identifier nm p sec d = .error .duplicateName ↔
      ∃ g, nm = some g ∧ g ≠ "" ∧ g ≠ identifier ∧
        config_exists g s = true) ∧
    ((∃ g, nm = some g ∧ g ≠ "" ∧ g ≠ identifier ∧
        config_exists g s = true) →
      applyOp s (.update identifier nm p sec d) = s) := by
  have hmain : modify_config s identifier nm p sec d
      = .error .duplicateName ↔
      ∃ g, nm = some g ∧ g ≠ "" ∧ g ≠ identifier ∧
        config_exists g s = true := by
    by_cases hB : (truthy nm && (nm.getD "" != identifier)
        && config_exists (nm.getD "") s) = true
    · constructor
      · intro _
        have hB' := hB
        simp only [Bool.and_eq_true, bne_iff_ne] at hB'
        obtain ⟨⟨ht, hne⟩, hex⟩ := hB'
        cases nm with
        | none => simp [truthy] at ht
        | some g =>
          have hg : g ≠ "" := by simpa [truthy] using ht
          exact ⟨g, rfl, hg, by simpa using hne, by simpa using hex⟩
      · intro _
        simp [modify_config, hid, hB]
    · constructor
      · intro hres
        exfalso
        by_cases hS : hasSetClause nm p sec d = true
        · by_cases hc : (s.countP fun r => r.name == identifier) == 0
          · simp [modify_config, hid, hB, hS, hc] at hres
          · simp [modify_config, hid, hB, hS, hc] at hres
        · simp [modify_config, hid, hB, hS] at hres
      · rintro ⟨g, rfl, hg, hgi, hex⟩
        exact absurd (by simp [truthy, hg, hgi, hex]) hB
  refine ⟨hmain, fun hexg => ?_⟩
  have hres := hmain.mpr hexg
  simp [applyOp, hres]

/-- Witness for C5 at the spec's rename-collision scenario: records
`test1` and `test4` both exist and `test1` is renamed to `test4`. -/
theorem claim5_rename_collision_witness :
    modify_config [⟨"test1", "192.168.1.1", none, none⟩,
        ⟨"test4", "192.168.1.5", none, none⟩] "test1"
        (some "test4") none none none = .error .duplicateName :=
  (claim5_rename_collision [⟨"test1", "192.168.1.1", none, none⟩,
      ⟨"test4", "192.168.1.5", none, none⟩] "test1"
      (some "test4") none none none (by decide)).1.mpr
    ⟨"test4", rfl, by decide, by decide, by decide⟩

/-- C9 counterexample: after Create of `b` into a store already holding a
record named `ab`, Query with filter `b` returns TWO records — `ab`
matches `LIKE '%b%'` as well — refuting the claim that the result is a
single record. -/
theorem claim9_counterexample :
    add_config [⟨"ab", "1.1.1.1", none, none⟩] "b" "2.2.2.2" none none
      = .ok [⟨"ab", "1.1.1.1", none, none⟩, ⟨"b", "2.2.2.2", none, none⟩] ∧
    get_configs [⟨"ab", "1.1.1.1", none, none⟩, ⟨"b", "2.2.2.2", none, none⟩]
        (some "b")
      = [⟨"ab", "1.1.1.1", none, none⟩, ⟨"b", "2.2.2.2", none, none⟩] := by
  decide

/-- C9 (amended): after a successful Create, Query with filter equal to the
created name returns the previously matching records followed by the new
record, whose four fields equal the Create arguments with unsupplied
optional fields as `none`; the result is a single record exactly when no
prior record matched the filter. -/
theorem claim9_roundtrip (s s' : Store) (name primary_address : String)
    (sec d : Option String)
    (h : add_config s name primary_address sec d = .ok s') :
    get_configs s' (some name) =
      get_configs s (some name) ++ [⟨name, primary_address, sec, d⟩] := by
  have hex : config_exists name s = false := by
    by_contra hex'
    simp only [Bool.not_eq_false] at hex'
    simp [add_config, hex'] at h
  have hs' : s' = s ++ [⟨name, primary_address, sec, d⟩] := by
    simp only [add_config, hex, Bool.false_eq_true, if_false,
      Except.ok.injEq] at h
    exact h.symm
  subst hs'
  unfold get_configs
  by_cases hn : truthy (some name) = true
  · rw [if_pos hn, if_pos hn, List.filter_append]
    congr 1
    simp [List.filter_cons, likeMatch_likePattern_self name]
  · rw [if_neg hn, if_neg hn]

/-- Witness for C9 (amended) at a concrete input where the new record is
the only match. -/
theorem claim9_roundtrip_witness :
    get_configs [⟨"test1", "192.168.1.1", none, none⟩,
        ⟨"test4", "192.168.1.5", none, none⟩] (some "test4")
      = get_configs [⟨"test1", "192.168.1.1", none, none⟩] (some "test4")
        ++ [⟨"test4", "192.168.1.5", none, none⟩] :=
  claim9_roundtrip [⟨"test1", "192.168.1.1", none, none⟩]
    [⟨"test1", "192.168.1.1", none, none⟩, ⟨"test4", "192.168.1.5", none, none⟩]
    "test4" "192.168.1.5" none none (by decide)

end DnsMaster
